import Mathlib

/-!
# Verification of the GAEB converter's parsing and export core

Shallow embedding of `src/app/lib/gaeb-parser.ts` (classes `GAEBParser` and
`ExcelExporter`) of the `gaeb-converter` repository.

Modelling conventions:
* JavaScript numbers are modelled as exact rationals extended with the special
  values `NaN`, `Infinity` and `-Infinity` (`JsNum`).  All numeric literals
  appearing in the claims are exactly representable, so float rounding does not
  affect any of the statements proved here.
* JavaScript regular expressions are modelled by a small backtracking engine
  (`Regex`, `runR`) with JavaScript semantics: leftmost match, ordered
  alternation, greedy quantifiers, ASCII `\w`-based word boundaries, and the
  `i` flag realised by case-folding character classes.  Each pattern of the
  source is transliterated node for node.
* The browser's `DOMParser` is external to the repository; the parsed XML
  document is therefore passed to the embedded parser as an explicit tree
  (`XNode`), with a parse failure represented — as in the DOM — by a
  `parsererror` element contained in the document.
* `new Date().toISOString()` is modelled by an explicit clock argument `now`.
-/

/-- Rationals with kernel-computable (structural) arithmetic, used to model
JavaScript's finite `number` values exactly.  Values are kept in lowest terms
with positive denominator by the `norm` smart constructor, so that structural
equality is value equality. -/
structure JsRat where
  num : Int
  den : Nat
deriving DecidableEq, Repr

namespace JsRat

/-- Euclidean gcd with explicit fuel (structural recursion). -/
def gcdF : Nat → Nat → Nat → Nat
  | 0, _, n => n
  | fuel + 1, m, n => if m = 0 then n else gcdF fuel (n % m) m

def ngcd (m n : Nat) : Nat := gcdF (m + 1) m n

/-- Normalised rational `n / d` (for `d = 0`, an arbitrary `0`; never used). -/
def norm (n : Int) (d : Nat) : JsRat :=
  if d = 0 then ⟨0, 1⟩
  else
    let g := ngcd n.natAbs d
    ⟨n / (g : Int), d / g⟩

def add (a b : JsRat) : JsRat := norm (a.num * b.den + b.num * a.den) (a.den * b.den)

def mul (a b : JsRat) : JsRat := norm (a.num * b.num) (a.den * b.den)

def neg (a : JsRat) : JsRat := ⟨-a.num, a.den⟩

def inv (a : JsRat) : JsRat :=
  if a.num = 0 then ⟨0, 1⟩
  else if a.num < 0 then ⟨-(a.den : Int), a.num.natAbs⟩
  else ⟨(a.den : Int), a.num.natAbs⟩

def div (a b : JsRat) : JsRat := a.mul b.inv

/-- Strict order by cross multiplication (denominators are positive). -/
def blt (a b : JsRat) : Bool := decide (a.num * b.den < b.num * a.den)

/-- Weak order by cross multiplication. -/
def ble (a b : JsRat) : Bool := decide (a.num * b.den ≤ b.num * a.den)

instance (n : Nat) : OfNat JsRat n := ⟨⟨(n : Int), 1⟩⟩

instance : Add JsRat := ⟨add⟩

instance : Mul JsRat := ⟨mul⟩

instance : Neg JsRat := ⟨neg⟩

instance : Div JsRat := ⟨div⟩

def powNat (a : JsRat) : Nat → JsRat
  | 0 => 1
  | k + 1 => (powNat a k).mul a

/-- Multiplication by a signed power of ten (for `parseFloat` exponents). -/
def mulPow10 (a : JsRat) : Int → JsRat
  | .ofNat k => a.mul (powNat 10 k)
  | .negSucc k => a.div (powNat 10 (k + 1))

end JsRat

/-- A JavaScript `number`, modelled as a rational extended with the IEEE
special values relevant to the parser (`NaN`, `±Infinity`). -/
inductive JsNum where
  | nan
  | inf
  | ninf
  | num (q : JsRat)
deriving DecidableEq, Repr

namespace JsNum

/-- JavaScript truthiness of a number: `NaN` and `0` are falsy. -/
def truthy : JsNum → Bool
  | nan => false
  | inf => true
  | ninf => true
  | num q => decide (q ≠ 0)

/-- JavaScript multiplication (`*`), with `NaN` and infinity propagation. -/
def mul : JsNum → JsNum → JsNum
  | nan, _ => nan
  | _, nan => nan
  | inf, inf => inf
  | inf, ninf => ninf
  | ninf, inf => ninf
  | ninf, ninf => inf
  | inf, num q => if q = 0 then nan else if JsRat.blt 0 q then inf else ninf
  | num q, inf => if q = 0 then nan else if JsRat.blt 0 q then inf else ninf
  | ninf, num q => if q = 0 then nan else if JsRat.blt 0 q then ninf else inf
  | num q, ninf => if q = 0 then nan else if JsRat.blt 0 q then ninf else inf
  | num a, num b => num (a * b)

/-- JavaScript division (`/`): division by zero produces a signed infinity,
`0 / 0` produces `NaN`. -/
def div : JsNum → JsNum → JsNum
  | nan, _ => nan
  | _, nan => nan
  | inf, inf => nan
  | inf, ninf => nan
  | ninf, inf => nan
  | ninf, ninf => nan
  | inf, num q => if JsRat.ble 0 q then inf else ninf
  | ninf, num q => if JsRat.ble 0 q then ninf else inf
  | num _, inf => num 0
  | num _, ninf => num 0
  | num a, num b =>
      if b = 0 then
        if a = 0 then nan else if JsRat.blt 0 a then inf else ninf
      else num (a / b)

/-- JavaScript `>` comparison; any comparison involving `NaN` is false. -/
def gt : JsNum → JsNum → Bool
  | nan, _ => false
  | _, nan => false
  | inf, inf => false
  | inf, _ => true
  | _, inf => false
  | ninf, _ => false
  | _, ninf => true
  | num a, num b => JsRat.blt b a

/-- Binary `Math.max`: `NaN` is absorbing. -/
def jmax : JsNum → JsNum → JsNum
  | nan, _ => nan
  | _, nan => nan
  | a, b => if gt a b then a else b

/-- Variadic `Math.max(...xs)`: the fold starts at `-Infinity`, matching
`Math.max()` of an empty argument list. -/
def maxList (l : List JsNum) : JsNum := l.foldl jmax ninf

end JsNum

/-- Truthiness of a `number | undefined` value (`undefined`, `NaN` and `0`
are all falsy). -/
def optNumTruthy : Option JsNum → Bool
  | none => false
  | some n => n.truthy

/-- Truthiness of a `string | undefined` value (`undefined` and `""` are
falsy). -/
def optStrTruthy : Option String → Bool
  | none => false
  | some s => decide (s ≠ "")

/-! ## Decimal digit strings (template-literal rendering of numbers) -/

/-- The decimal digit character for `d < 10` (`'0'` as a dead default). -/
def decDigitChar : Nat → Char
  | 0 => '0'
  | 1 => '1'
  | 2 => '2'
  | 3 => '3'
  | 4 => '4'
  | 5 => '5'
  | 6 => '6'
  | 7 => '7'
  | 8 => '8'
  | 9 => '9'
  | _ => '0'

/-- Numeric value of a decimal digit character (`0` on non-digits). -/
def decDigitVal : Char → Nat
  | '1' => 1
  | '2' => 2
  | '3' => 3
  | '4' => 4
  | '5' => 5
  | '6' => 6
  | '7' => 7
  | '8' => 8
  | '9' => 9
  | _ => 0

/-- Decimal digit expansion with explicit fuel (structural recursion, so
that closed evaluations reduce in the kernel). -/
def natDigitsF : Nat → Nat → List Char
  | 0, _ => []
  | fuel + 1, n =>
      if n < 10 then [decDigitChar n]
      else natDigitsF fuel (n / 10) ++ [decDigitChar (n % 10)]

/-- Decimal digit expansion of a natural number, most significant first. -/
def natDigits (n : Nat) : List Char := natDigitsF (n + 1) n

/-- Rendering of a natural number in decimal, as by a template literal. -/
def natStr (n : Nat) : String := ⟨natDigits n⟩

/-- Numeric value of a list of decimal digit characters. -/
def digitsVal (l : List Char) : Nat := l.foldl (fun acc c => 10 * acc + decDigitVal c) 0

theorem decDigitVal_decDigitChar {d : Nat} (h : d < 10) :
    decDigitVal (decDigitChar d) = d := by
  interval_cases d <;> rfl

theorem decDigitChar_mem (d : Nat) :
    decDigitChar d ∈ (['0', '1', '2', '3', '4', '5', '6', '7', '8', '9'] : List Char) := by
  unfold decDigitChar
  split <;> decide

theorem digitsVal_append_singleton (l : List Char) (c : Char) :
    digitsVal (l ++ [c]) = 10 * digitsVal l + decDigitVal c := by
  simp [digitsVal, List.foldl_append]

theorem digitsVal_natDigitsF :
    ∀ fuel n, n < fuel → digitsVal (natDigitsF fuel n) = n := by
  intro fuel
  induction fuel with
  | zero => intro n h; omega
  | succ fuel ih =>
    intro n h
    rw [natDigitsF]
    by_cases h10 : n < 10
    · simp [h10, digitsVal, decDigitVal_decDigitChar h10]
    · have hdiv : n / 10 < n := Nat.div_lt_self (by omega) (by omega)
      rw [if_neg h10, digitsVal_append_singleton, ih (n / 10) (by omega),
        decDigitVal_decDigitChar (Nat.mod_lt _ (by omega))]
      omega

theorem digitsVal_natDigits (n : Nat) : digitsVal (natDigits n) = n :=
  digitsVal_natDigitsF (n + 1) n (by omega)

theorem natStr_injective {m n : Nat} (h : natStr m = natStr n) : m = n := by
  have hd : natDigits m = natDigits n := congrArg String.data h
  have := congrArg digitsVal hd
  rwa [digitsVal_natDigits, digitsVal_natDigits] at this

theorem natDigitsF_mem_digits :
    ∀ fuel n {c : Char}, c ∈ natDigitsF fuel n →
      c ∈ (['0', '1', '2', '3', '4', '5', '6', '7', '8', '9'] : List Char) := by
  intro fuel
  induction fuel with
  | zero => intro n c h; simp [natDigitsF] at h
  | succ fuel ih =>
    intro n c h
    rw [natDigitsF] at h
    by_cases h10 : n < 10
    · rw [if_pos h10, List.mem_singleton] at h
      subst h
      exact decDigitChar_mem n
    · rw [if_neg h10, List.mem_append, List.mem_singleton] at h
      rcases h with h | h
      · exact ih (n / 10) h
      · subst h
        exact decDigitChar_mem (n % 10)

theorem natDigits_mem_digits {n : Nat} {c : Char} (h : c ∈ natDigits n) :
    c ∈ (['0', '1', '2', '3', '4', '5', '6', '7', '8', '9'] : List Char) :=
  natDigitsF_mem_digits (n + 1) n h

/-- Rendering of an integer in decimal. -/
def intStr (i : Int) : String :=
  if i < 0 then "-" ++ natStr i.natAbs else natStr i.toNat

/-- Template-literal rendering of a `number` that is either an integer or
`NaN` (`none`), as produced by `parseInt`. -/
def jsIntStr : Option Int → String
  | none => "NaN"
  | some i => intStr i

/-! ## JavaScript string primitives -/

/-- The JavaScript whitespace class (`\s`, `trim`): the characters that can
occur in the repository's inputs. -/
def isJsWs (c : Char) : Bool :=
  c = ' ' ∨ c = '\t' ∨ c = '\n' ∨ c = '\r' ∨ c = '\x0b' ∨ c = '\x0c' ∨
  c = '\u00A0' ∨ c = '\uFEFF'

/-- JavaScript `String.prototype.trim`. -/
def jsTrim (s : String) : String :=
  ⟨((s.data.dropWhile isJsWs).reverse.dropWhile isJsWs).reverse⟩

/-- JavaScript `String.prototype.trimStart`. -/
def jsTrimStart (s : String) : String := ⟨s.data.dropWhile isJsWs⟩

/-- JavaScript `String.prototype.toLowerCase` on one character, for the alphabet used by
the source (ASCII plus the German umlauts appearing in its patterns). -/
def jsLowerChar (c : Char) : Char :=
  if 'A' ≤ c ∧ c ≤ 'Z' then Char.ofNat (c.toNat + 32)
  else if c = 'Ä' then 'ä'
  else if c = 'Ö' then 'ö'
  else if c = 'Ü' then 'ü'
  else c

/-- JavaScript `String.prototype.toLowerCase`. -/
def jsToLower (s : String) : String := ⟨s.data.map jsLowerChar⟩

/-- Substring containment on character lists. -/
def containsSubList : List Char → List Char → Bool
  | hay, needle =>
    if needle.isPrefixOf hay then true
    else match hay with
      | [] => false
      | _ :: t => containsSubList t needle

/-- JavaScript `String.prototype.includes`. -/
def jsIncludes (s sub : String) : Bool := containsSubList s.data sub.data

/-- JavaScript `String.prototype.startsWith`. -/
def jsStartsWith (s pre : String) : Bool := pre.data.isPrefixOf s.data

/-- JavaScript `String.prototype.substring(0, n)` (all inputs are BMP text, so UTF-16
code units coincide with characters). -/
def jsSubstringTo (n : Nat) (s : String) : String := ⟨s.data.take n⟩

/-- JavaScript `s.replace(c, d)` with a one-character plain-string pattern: replaces the
first occurrence only. -/
def replaceFirstChar (c d : Char) (s : String) : String :=
  ⟨go s.data⟩
where
  go : List Char → List Char
    | [] => []
    | x :: t => if x = c then d :: t else x :: go t

/-- A string defaulting: `a || b` for strings (empty string is falsy). -/
def orIfEmpty (a b : String) : String := if a = "" then b else a

/-! ## `parseInt` and `parseFloat` -/

def isHexDigit (c : Char) : Bool :=
  c.isDigit ∨ ('a' ≤ c ∧ c ≤ 'f') ∨ ('A' ≤ c ∧ c ≤ 'F')

def hexDigitVal (c : Char) : Nat :=
  if c.isDigit then decDigitVal c
  else if 'a' ≤ c ∧ c ≤ 'f' then c.toNat - 'a'.toNat + 10
  else if 'A' ≤ c ∧ c ≤ 'F' then c.toNat - 'A'.toNat + 10
  else 0

def hexVal (l : List Char) : Nat := l.foldl (fun acc c => 16 * acc + hexDigitVal c) 0

/-- JavaScript `parseInt(s)` (radix unspecified): leading whitespace and an
optional sign are skipped, a `0x`/`0X` prefix selects hexadecimal, and the
longest digit prefix is parsed; `none` models `NaN`. -/
def parseIntJS (s : String) : Option Int :=
  let l := s.data.dropWhile isJsWs
  let sign : Int := match l with
    | '-' :: _ => -1
    | _ => 1
  let l1 := match l with
    | '-' :: r => r
    | '+' :: r => r
    | _ => l
  match l1 with
  | '0' :: c :: r =>
      if c = 'x' ∨ c = 'X' then
        let ds := r.takeWhile isHexDigit
        if ds = [] then none else some (sign * hexVal ds)
      else
        let ds := l1.takeWhile Char.isDigit
        some (sign * digitsVal ds)
  | _ =>
      let ds := l1.takeWhile Char.isDigit
      if ds = [] then none else some (sign * digitsVal ds)

/-- Value of a fractional digit list (`digits` after the decimal point). -/
def fracVal (l : List Char) : JsRat :=
  JsRat.div ⟨(digitsVal l : Int), 1⟩ (JsRat.powNat 10 l.length)

/-- JavaScript `parseFloat(s)`: leading whitespace and an optional sign are
skipped, then the longest prefix of the form `digits [. digits] [e[±]digits]`
(or `Infinity`) is parsed; no valid prefix yields `NaN`. -/
def parseFloatJS (s : String) : JsNum :=
  let l := s.data.dropWhile isJsWs
  let neg : Bool := match l with
    | '-' :: _ => true
    | _ => false
  let l1 := match l with
    | '-' :: r => r
    | '+' :: r => r
    | _ => l
  if ("Infinity").data.isPrefixOf l1 then
    if neg then JsNum.ninf else JsNum.inf
  else
    let ip := l1.takeWhile Char.isDigit
    let rest1 := l1.dropWhile Char.isDigit
    let fp := match rest1 with
      | '.' :: r => r.takeWhile Char.isDigit
      | _ => []
    let rest2 := match rest1 with
      | '.' :: r => r.dropWhile Char.isDigit
      | _ => rest1
    if ip = [] ∧ fp = [] then JsNum.nan
    else
      let mant : JsRat := JsRat.add ⟨(digitsVal ip : Int), 1⟩ (fracVal fp)
      let expo : Int := match rest2 with
        | c :: r =>
            if c = 'e' ∨ c = 'E' then
              let esign : Int := match r with
                | '-' :: _ => -1
                | _ => 1
              let r1 := match r with
                | '-' :: rr => rr
                | '+' :: rr => rr
                | _ => r
              let ed := r1.takeWhile Char.isDigit
              if ed = [] then 0 else esign * digitsVal ed
            else 0
        | [] => 0
      JsNum.num (JsRat.mulPow10 (if neg then mant.neg else mant) expo)

/-! ## A JavaScript-semantics regular-expression engine

Backtracking matcher with ordered alternation, greedy quantifiers, ASCII word
boundaries, start/end anchors and a single capture group — exactly the
features used by the source's patterns.  `fuel` bounds the recursion depth;
`regexFuel` below is always sufficient for the patterns at hand because every
quantified sub-pattern of the source consumes at least one character per
iteration. -/

inductive Regex where
  | eps
  | never
  | ch (c : Char)
  | cls (p : Char → Bool)
  | seq (a b : Regex)
  | alt (a b : Regex)
  | star (r : Regex)
  | group (r : Regex)
  | wordB
  | bol
  | eol

/-- The JavaScript `\w` class (ASCII letters, digits, underscore). -/
def isWordChar (c : Char) : Bool := c.isAlpha ∨ c.isDigit ∨ c = '_'

/-- One backtracking step.  `pv` is the character immediately before the
current position (`none` at the start of the subject), `s` the remaining
input, `cap` the capture recorded so far, and `k` the success continuation. -/
def runR {α : Type} : Nat → Regex → Option Char → List Char →
    Option (List Char) →
    (Option Char → List Char → Option (List Char) → Option α) → Option α
  | 0, _, _, _, _, _ => none
  | _ + 1, .eps, pv, s, cap, k => k pv s cap
  | _ + 1, .never, _, _, _, _ => none
  | _ + 1, .ch c, pv, s, cap, k =>
      match s with
      | [] => none
      | c' :: rest => if c' = c then k (some c') rest cap else none
  | _ + 1, .cls p, pv, s, cap, k =>
      match s with
      | [] => none
      | c' :: rest => if p c' then k (some c') rest cap else none
  | fuel + 1, .seq a b, pv, s, cap, k =>
      runR fuel a pv s cap (fun pv' s' cap' => runR fuel b pv' s' cap' k)
  | fuel + 1, .alt a b, pv, s, cap, k =>
      (runR fuel a pv s cap k).orElse (fun _ => runR fuel b pv s cap k)
  | fuel + 1, .star r, pv, s, cap, k =>
      (runR fuel r pv s cap (fun pv' s' cap' =>
        if s'.length < s.length then runR fuel (.star r) pv' s' cap' k
        else k pv' s' cap')).orElse (fun _ => k pv s cap)
  | fuel + 1, .group r, pv, s, cap, k =>
      runR fuel r pv s cap (fun pv' s' _ =>
        k pv' s' (some (s.take (s.length - s'.length))))
  | _ + 1, .wordB, pv, s, cap, k =>
      let before := match pv with
        | none => false
        | some c => isWordChar c
      let after := match s with
        | [] => false
        | c :: _ => isWordChar c
      if before ≠ after then k pv s cap else none
  | _ + 1, .bol, pv, s, cap, k => if pv = none then k pv s cap else none
  | _ + 1, .eol, pv, s, cap, k => if s = [] then k pv s cap else none

/-- Fuel bound used for all pattern executions. -/
def regexFuel (s : List Char) : Nat := 2000 * (s.length + 10)

/-- Attempt a match of `r` at the current position; on success returns the
consumed prefix (group 0) and the capture (group 1, if any). -/
def matchAt (r : Regex) (pv : Option Char) (s : List Char) :
    Option (List Char × Option (List Char)) :=
  runR (regexFuel s) r pv s none
    (fun _ s' cap => some (s.take (s.length - s'.length), cap))

/-- Leftmost match of `r` in the subject, as `RegExp.prototype.exec`:
positions are tried left to right, the first that matches wins. -/
def searchFrom (r : Regex) : Option Char → List Char →
    Option (List Char × Option (List Char))
  | pv, s =>
    match matchAt r pv s with
    | some res => some res
    | none =>
        match s with
        | [] => none
        | c :: rest => searchFrom r (some c) rest

/-- JavaScript `re.test(s)` / truthiness of `s.match(re)` without `g`. -/
def regexTest (r : Regex) (s : String) : Bool := (searchFrom r none s.data).isSome

/-- Group 0 of the first match (`s.match(re)[0]`). -/
def regexFirst (r : Regex) (s : String) : Option String :=
  (searchFrom r none s.data).map (fun res => ⟨res.1⟩)

/-- Group 1 of the first match (`s.match(re)[1]`, for patterns whose single
group participates in every match). -/
def regexFirstGroup (r : Regex) (s : String) : Option String :=
  match searchFrom r none s.data with
  | some (_, some g) => some (⟨g⟩ : String)
  | _ => none

/-- All matches of a global pattern (`s.match(/re/g)`), group 0 texts.
An empty match advances by one position, as the `lastIndex` rules do. -/
def matchAllAux (r : Regex) : Nat → Option Char → List Char → List (List Char)
  | 0, _, _ => []
  | fuel + 1, pv, s =>
      match matchAt r pv s with
      | some (g0, _) =>
          match g0 with
          | [] =>
              match s with
              | [] => []
              | c :: rest => matchAllAux r fuel (some c) rest
          | _ =>
              g0 :: matchAllAux r fuel (g0.getLastD ' ')
                (s.drop g0.length)
      | none =>
          match s with
          | [] => []
          | c :: rest => matchAllAux r fuel (some c) rest

/-- JavaScript `s.match(/re/g)`, `null` mapped to `[]` being distinguished by
the caller via `List.isEmpty`. -/
def regexMatchAll (r : Regex) (s : String) : List String :=
  (matchAllAux r (s.data.length + 1) none s.data).map (fun l => (⟨l⟩ : String))

/-- Replacement of every match of `r` by `repl` (`s.replace(/re/g, repl)`).
Word boundaries are evaluated against the original neighbours, as the
scanning semantics of `replace` do. -/
def replaceAllAux (r : Regex) (repl : List Char) :
    Nat → Option Char → List Char → List Char
  | 0, _, s => s
  | fuel + 1, pv, s =>
      match matchAt r pv s with
      | some (g0, _) =>
          match g0 with
          | [] =>
              match s with
              | [] => repl
              | c :: rest => repl ++ c :: replaceAllAux r repl fuel (some c) rest
          | _ =>
              repl ++ replaceAllAux r repl fuel (g0.getLastD ' ')
                (s.drop g0.length)
      | none =>
          match s with
          | [] => []
          | c :: rest => c :: replaceAllAux r repl fuel (some c) rest

def regexReplaceAll (r : Regex) (repl : String) (s : String) : String :=
  ⟨replaceAllAux r repl.data (s.data.length + 1) none s.data⟩

/-- Replacement of the first match only (`s.replace(/re/, repl)`). -/
def replaceFirstAux (r : Regex) (repl : List Char) :
    Option Char → List Char → List Char
  | pv, s =>
    match matchAt r pv s with
    | some (g0, _) => repl ++ s.drop g0.length
    | none =>
        match s with
        | [] => []
        | c :: rest => c :: replaceFirstAux r repl (some c) rest

def regexReplaceFirst (r : Regex) (repl : String) (s : String) : String :=
  ⟨replaceFirstAux r repl.data none s.data⟩

/-! ### Pattern combinators -/

/-- Ordered alternation of a list of alternatives. -/
def ralts (l : List Regex) : Regex := l.foldr .alt .never

/-- Sequential composition of a list of patterns. -/
def rseqs (l : List Regex) : Regex := l.foldr .seq .eps

/-- One-or-more, greedy (`+`). -/
def rplus (r : Regex) : Regex := .seq r (.star r)

/-- Zero-or-one, greedy (`?`). -/
def ropt (r : Regex) : Regex := .alt r .eps

/-- A literal string, case-sensitively. -/
def rstr (s : String) : Regex := rseqs (s.data.map .ch)

/-- A literal string under the `i` flag (case-folded comparison). -/
def rstrCI (s : String) : Regex :=
  rseqs (s.data.map (fun c => .cls (fun x => jsLowerChar x = jsLowerChar c)))

/-- An explicit character set such as `[,\.]`. -/
def rset (s : String) : Regex := .cls (fun c => s.data.contains c)

/-- The `\d` class. -/
def rdigit : Regex := .cls Char.isDigit

/-- The `\s` class. -/
def rws : Regex := .cls isJsWs

/-- The class `[A-Za-z]`. -/
def rAsciiAlpha : Regex := .cls (fun c => ('A' ≤ c ∧ c ≤ 'Z') ∨ ('a' ≤ c ∧ c ≤ 'z'))

/-- The class `[A-Z]`. -/
def rUpperAZ : Regex := .cls (fun c => 'A' ≤ c ∧ c ≤ 'Z')

/-- The class `[A-ZÜÄÖ]`. -/
def isUpperUml (c : Char) : Bool := ('A' ≤ c ∧ c ≤ 'Z') ∨ c = 'Ü' ∨ c = 'Ä' ∨ c = 'Ö'

/-! ## The source's regular expressions (`gaeb-parser.ts`), transliterated -/

/-- Vocabulary of `looksLikePosition`'s unit alternation, in source order. -/
def unitVocab : List String :=
  ["m²", "m³", "lfm", "kg", "t", "Stk", "psch", "St", "qm", "cbm", "to",
   "lfd", "Std", "h", "m", "cm", "mm", "l", "kWh", "Pfl", "bgl"]

/-- Vocabulary of the shorter unit alternation in the number-plus-unit
heuristic (`...|h|m)`). -/
def unitVocabShort : List String :=
  ["m²", "m³", "lfm", "kg", "t", "Stk", "psch", "St", "qm", "cbm", "to",
   "lfd", "Std", "h", "m"]

/-- Construction-domain keywords of `looksLikePosition`. -/
def domainKeywords : List String :=
  ["Beton", "Mauerwerk", "Estrich", "Fliesen", "Putz", "Anstrich",
   "Dämmung", "Installation", "Montage", "Lieferung"]

/-- Heuristic 1: `/^\s*\d+(\.\d+)*[A-Za-z]?\s+/`. -/
def lkNumPat : Regex :=
  rseqs [.bol, .star rws, rplus rdigit,
    .star (.group (rseqs [.ch '.', rplus rdigit])), ropt rAsciiAlpha, rplus rws]

/-- Heuristic 2: `/^\s*[A-Z]\d+(\.\d+)*\s+/`. -/
def lkLetterNumPat : Regex :=
  rseqs [.bol, .star rws, rUpperAZ, rplus rdigit,
    .star (.group (rseqs [.ch '.', rplus rdigit])), rplus rws]

/-- Heuristic 3: `/\b(m²|m³|…|bgl)\b/i`. -/
def lkUnitPat : Regex :=
  rseqs [.wordB, .group (ralts (unitVocab.map rstrCI)), .wordB]

/-- Heuristic 4: `/\d+[,\.]\d+\s*(€|EUR|DM)/i`. -/
def lkCurrencyPat : Regex :=
  rseqs [rplus rdigit, rset ",.", rplus rdigit, .star rws,
    .group (ralts [rstrCI "€", rstrCI "EUR", rstrCI "DM"])]

/-- Heuristic 5: `/^\s*\d+\s+[A-ZÜÄÖ]/`. -/
def lkNumUpperPat : Regex :=
  rseqs [.bol, .star rws, rplus rdigit, rplus rws, .cls isUpperUml]

/-- Heuristic 6: `/\d+[,\.]?\d*\s+(m²|…|m)\b/i`. -/
def lkQtyUnitPat : Regex :=
  rseqs [rplus rdigit, ropt (rset ",."), .star rdigit, rplus rws,
    .group (ralts (unitVocabShort.map rstrCI)), .wordB]

/-- Heuristic 7: `/\b(Beton|…|Lieferung)\b/i`. -/
def lkKeywordPat : Regex :=
  rseqs [.wordB, .group (ralts (domainKeywords.map rstrCI)), .wordB]

/-- Position-number pattern 1: `/^\s*(\d+(?:\.\d+)*[A-Za-z]?)\s+/`. -/
def posNumPat1 : Regex :=
  rseqs [.bol, .star rws,
    .group (rseqs [rplus rdigit, .star (rseqs [.ch '.', rplus rdigit]),
      ropt rAsciiAlpha]),
    rplus rws]

/-- Position-number pattern 2: `/^\s*([A-Z]\d+(?:\.\d+)*)\s+/`. -/
def posNumPat2 : Regex :=
  rseqs [.bol, .star rws,
    .group (rseqs [rUpperAZ, rplus rdigit, .star (rseqs [.ch '.', rplus rdigit])]),
    rplus rws]

/-- Position-number pattern 3: `/^\s*(\d{2,3})\s+/`. -/
def posNumPat3 : Regex :=
  rseqs [.bol, .star rws, .group (rseqs [rdigit, rdigit, ropt rdigit]), rplus rws]

/-- Number pattern 1: `/(\d+[,\.]\d+)/g` (decimal numbers). -/
def decimalNumPat : Regex :=
  .group (rseqs [rplus rdigit, rset ",.", rplus rdigit])

/-- Number pattern 2: `/(\d+)/g` (integers). -/
def integerNumPat : Regex := .group (rplus rdigit)

/-- The unit pattern of `parsePosition`:
`/\b(m²|…|bgl|EUR|€|DM)\b/i`. -/
def unitPattern : Regex :=
  rseqs [.wordB,
    .group (ralts ((unitVocab ++ ["EUR", "€", "DM"]).map rstrCI)), .wordB]

/-- Currency pattern 1: `/(\d+[,\.]\d+)\s*(?:€|EUR)/i`. -/
def currencyPat1 : Regex :=
  rseqs [.group (rseqs [rplus rdigit, rset ",.", rplus rdigit]), .star rws,
    ralts [rstrCI "€", rstrCI "EUR"]]

/-- Currency pattern 2: `/(\d+[,\.]\d+)\s*DM/i`. -/
def currencyPat2 : Regex :=
  rseqs [.group (rseqs [rplus rdigit, rset ",.", rplus rdigit]), .star rws,
    rstrCI "DM"]

/-- Currency pattern 3: `/€\s*(\d+[,\.]\d+)/i`. -/
def currencyPat3 : Regex :=
  rseqs [rstrCI "€", .star rws,
    .group (rseqs [rplus rdigit, rset ",.", rplus rdigit])]

/-- Currency pattern 4: `/EUR\s*(\d+[,\.]\d+)/i`. -/
def currencyPat4 : Regex :=
  rseqs [rstrCI "EUR", .star rws,
    .group (rseqs [rplus rdigit, rset ",.", rplus rdigit])]

/-- Title-classification pattern: `/^\s*\d+\s+[A-ZÜÄÖ][A-ZÜÄÖ\s]+$/`. -/
def titleLinePat : Regex :=
  rseqs [.bol, .star rws, rplus rdigit, rplus rws, .cls isUpperUml,
    rplus (.cls (fun c => isUpperUml c ∨ isJsWs c)), .eol]

/-- Calculation-line pattern: `/\b(gesamt|summe|total|zwischensumme)\b/i`. -/
def calcLinePat : Regex :=
  rseqs [.wordB,
    .group (ralts (["gesamt", "summe", "total", "zwischensumme"].map rstrCI)),
    .wordB]

/-- Price-strip pattern used on titles: `/\d+[,\.]\d*\s*(?:€|EUR|DM)/gi`. -/
def priceStripPat : Regex :=
  rseqs [rplus rdigit, rset ",.", .star rdigit, .star rws,
    ralts [rstrCI "€", rstrCI "EUR", rstrCI "DM"]]

/-- Quantity-strip pattern used on titles for a given (escaped, hence
literal) unit: `/\d+[,\.]?\d*\s*UNIT/gi`. -/
def qtyStripPat (unit : String) : Regex :=
  rseqs [rplus rdigit, ropt (rset ",."), .star rdigit, .star rws, rstrCI unit]

/-- Leading position-number strip: `new RegExp('^\\s*' + escaped + '\\s*')`;
the position number is escaped in the source, hence matched literally. -/
def posNumStripPat (pn : String) : Regex :=
  rseqs [.bol, .star rws, rstr pn, .star rws]

/-- Whitespace collapse: `/\s+/g`. -/
def wsPlusPat : Regex := rplus rws

/-- Fallback title strip: `/^\d+[\.\s]*/`. -/
def fallbackStripPat : Regex :=
  rseqs [.bol, rplus rdigit, .star (.cls (fun c => c = '.' ∨ isJsWs c))]

/-! ## A minimal DOM for the structured-markup path

The browser's `DOMParser` is outside the repository; the embedded parser
receives the parsed tree as an `XNode`.  A document is an element with tag
`#document` whose children are the top-level nodes; a DOM parse failure is,
as in `DOMParser`, a document containing a `parsererror` element. -/

inductive XNode where
  | elem (tag : String) (attrs : List (String × String)) (children : List XNode)
  | text (s : String)

namespace XNode

/-- DOM `getAttribute`: `none` models `null` (attribute absent). -/
def getAttribute (n : XNode) (name : String) : Option String :=
  match n with
  | .elem _ attrs _ => attrs.lookup name
  | .text _ => none

/-- An attribute read with a `||`-style default (an empty attribute value is
falsy and also takes the default). -/
def attrOr (n : XNode) (name dflt : String) : String :=
  match n.getAttribute name with
  | some s => if s = "" then dflt else s
  | none => dflt

/-- DOM `textContent`: concatenation of all descendant text. -/
def textContent : XNode → String
  | .text s => s
  | .elem _ _ ch => textContentList ch
where
  textContentList : List XNode → String
    | [] => ""
    | c :: rest => textContent c ++ textContentList rest

/-- All descendants of a node (excluding the node itself) in document order,
each paired with the tag path from the node down to its parent. -/
def descendantsWithPath : XNode → List String → List (List String × XNode)
  | .text _, _ => []
  | .elem t _ ch, anc => descListWithPath ch (anc ++ [t])
where
  descListWithPath : List XNode → List String → List (List String × XNode)
    | [], _ => []
    | c :: rest, anc =>
        (anc, c) :: descendantsWithPath c anc ++ descListWithPath rest anc

/-- CSS descendant-combinator matching: all selector components occur, in
order, along the ancestor path. -/
def selChain : List String → List String → Bool
  | [], _ => true
  | s :: ss, anc =>
      match anc with
      | [] => false
      | a :: rest => if a = s then selChain ss rest else selChain (s :: ss) rest

/-- DOM `querySelectorAll` for a selector `anc₁ … ancₖ tgt` made of type
selectors and descendant combinators (the only selector forms the source
uses).  XML documents: tag comparison is case-sensitive. -/
def querySelectorAll (root : XNode) (ancSel : List String) (tgt : String) :
    List XNode :=
  (root.descendantsWithPath []).filterMap (fun e =>
    match e with
    | (anc, .elem t a ch) =>
        if t = tgt ∧ selChain ancSel anc then some (.elem t a ch) else none
    | _ => none)

/-- DOM `querySelector` (first match in document order). -/
def querySelector (root : XNode) (ancSel : List String) (tgt : String) :
    Option XNode :=
  (root.querySelectorAll ancSel tgt).head?

end XNode

/-! ## The hierarchy model (`gaeb-parser.ts` interfaces) -/

/-- The `GAEBPosition.type` union. -/
inductive PosType where
  | title
  | position
  | text
  | calculation
deriving DecidableEq, Repr

/-- Interface `GAEBPosition`.  The optional `children` field of the source
interface is never assigned by the parser and is omitted. -/
structure GAEBPosition where
  id : String
  positionNumber : Option String
  title : String
  description : Option String
  unit : Option String
  quantity : Option JsNum
  unitPrice : Option JsNum
  totalPrice : Option JsNum
  level : Nat
  parent : Option String
  type : PosType
deriving DecidableEq, Repr

/-- Interface `GAEBHeader`. -/
structure GAEBHeader where
  version : Option String := none
  project : Option String := none
  description : Option String := none
  date : Option String := none
  format : Option String := none
deriving DecidableEq, Repr

/-- Interface `GAEBData`. -/
structure GAEBData where
  header : GAEBHeader
  positions : List GAEBPosition
  rawContent : String
  fileName : String
  processedAt : String
  totalPositions : Nat
deriving DecidableEq, Repr

/-! ## `GAEBParser`: the heuristic line parser -/

/-- JavaScript `String.prototype.split` with a one-character separator. -/
def splitCharAux (sep : Char) : List Char → List Char → List String
  | [], acc => [⟨acc.reverse⟩]
  | c :: t, acc =>
      if c = sep then (⟨acc.reverse⟩ : String) :: splitCharAux sep t []
      else splitCharAux sep t (c :: acc)

/-- JavaScript `s.split(sep)` for a single-character separator. -/
def jsSplitChar (sep : Char) (s : String) : List String := splitCharAux sep s.data []

/-- JavaScript `Array.prototype.join` with a separator string. -/
def joinWith (sep : String) : List String → String
  | [] => ""
  | [x] => x
  | x :: xs => x ++ sep ++ joinWith sep xs

/-- Source `extractValue`: everything after the first colon (trimmed), or the
whole line when there is no colon. -/
def extractValue (line : String) : String :=
  match jsSplitChar ':' line with
  | [] => line
  | [_] => line
  | _ :: rest => jsTrim (joinWith ":" rest)

/-- Source `detectGAEBFormat` (text dialect label). -/
def detectGAEBFormat (content : String) : String :=
  if jsIncludes content "D81" ∨ jsIncludes content "d81" then "D81"
  else if jsIncludes content "D83" ∨ jsIncludes content "d83" then "D83"
  else if jsIncludes content "D84" ∨ jsIncludes content "d84" then "D84"
  else if jsIncludes content "P81" ∨ jsIncludes content "p81" then "P81"
  else if jsIncludes content "P83" ∨ jsIncludes content "p83" then "P83"
  else if jsIncludes content "X81" ∨ jsIncludes content "x81" then "X81"
  else if jsIncludes content "X83" ∨ jsIncludes content "x83" then "X83"
  else "Unknown"

/-- Source `detectXMLGAEBFormat` (XML dialect label). -/
def detectXMLGAEBFormat (content : String) : String :=
  if jsIncludes content "DA83/3.3" then "X83"
  else if jsIncludes content "DA84" then "X84"
  else if jsIncludes content "DA81" then "X81"
  else if jsIncludes content "<GAEB" then "XML GAEB"
  else "XML"

/-- Source `looksLikePosition`: the layered position-line heuristics. -/
def looksLikePosition (line : String) : Bool :=
  let trimmedLine := jsTrim line
  if trimmedLine = "" ∨ trimmedLine.length < 3 then false
  else if jsIncludes (jsToLower trimmedLine) "header" ∨
      jsIncludes (jsToLower trimmedLine) "projekt" then false
  else
    regexTest lkNumPat line ∨ regexTest lkLetterNumPat line ∨
    regexTest lkUnitPat line ∨ regexTest lkCurrencyPat line ∨
    regexTest lkNumUpperPat line ∨ regexTest lkQtyUnitPat line ∨
    regexTest lkKeywordPat line

/-- Position-number extraction of `parsePosition`: three ordered patterns,
first match wins, group 1. -/
def extractPositionNumber (line : String) : Option String :=
  match regexFirstGroup posNumPat1 line with
  | some g => some g
  | none =>
      match regexFirstGroup posNumPat2 line with
      | some g => some g
      | none => regexFirstGroup posNumPat3 line

/-- Plain-number extraction of `parsePosition`: all decimal-number matches,
or — only when there are none — all integer matches; each is parsed after
replacing the first comma by a dot. -/
def extractCleanNumbers (line : String) : List JsNum :=
  let numbers :=
    match regexMatchAll decimalNumPat line with
    | [] => regexMatchAll integerNumPat line
    | l => l
  numbers.map (fun n => parseFloatJS (replaceFirstChar ',' '.' n))

/-- Unit extraction of `parsePosition`: first match of `unitPattern`
(`match[0]`). -/
def extractUnit (line : String) : Option String := regexFirst unitPattern line

/-- Currency extraction of `parsePosition`: four ordered patterns, first
match wins, group 1 parsed after comma-to-dot replacement. -/
def extractCurrency (line : String) : Option JsNum :=
  match regexFirstGroup currencyPat1 line with
  | some g => some (parseFloatJS (replaceFirstChar ',' '.' g))
  | none =>
      match regexFirstGroup currencyPat2 line with
      | some g => some (parseFloatJS (replaceFirstChar ',' '.' g))
      | none =>
          match regexFirstGroup currencyPat3 line with
          | some g => some (parseFloatJS (replaceFirstChar ',' '.' g))
          | none =>
              match regexFirstGroup currencyPat4 line with
              | some g => some (parseFloatJS (replaceFirstChar ',' '.' g))
              | none => none

/-- Type classification of `parsePosition`, in source priority order. -/
def classifyType (trimmedLine : String) (positionNumber unit : Option String)
    (currencyAmount : Option JsNum) : PosType :=
  if regexTest titleLinePat trimmedLine then .title
  else if ¬ optStrTruthy positionNumber ∧ trimmedLine.length > 80 ∧
      ¬ optNumTruthy currencyAmount then .text
  else if currencyAmount.isSome ∨ optStrTruthy unit then .position
  else if regexTest calcLinePat trimmedLine then .calculation
  else .position

/-- Title derivation of `parsePosition`: strip the position number, price
substrings, quantity-with-unit substrings, collapse whitespace, with a
fallback for empty or too-short results. -/
def deriveTitle (trimmedLine : String) (positionNumber unit : Option String)
    (currencyAmount : Option JsNum) (index : Nat) : String :=
  let t1 :=
    if optStrTruthy positionNumber then
      regexReplaceFirst (posNumStripPat (positionNumber.getD "")) "" trimmedLine
    else trimmedLine
  let t2 :=
    if optNumTruthy currencyAmount then regexReplaceAll priceStripPat "" t1
    else t1
  let t3 :=
    match unit with
    | some u =>
        if u ≠ "" ∧ u ≠ "€" ∧ u ≠ "EUR" ∧ u ≠ "DM" then
          regexReplaceAll (qtyStripPat u) "" t2
        else t2
    | none => t2
  let t4 := jsTrim (regexReplaceAll wsPlusPat " " t3)
  if t4 = "" ∨ t4.length < 3 then
    orIfEmpty (jsTrim (regexReplaceFirst fallbackStripPat "" trimmedLine))
      ("Position " ++ natStr (index + 1))
  else t4

/-- Hierarchy level of `parsePosition`: leading-whitespace count divided by
four, raised to the dot count of the position number. -/
def deriveLevel (line : String) (positionNumber : Option String) : Nat :=
  let leadingSpaces := line.length - (jsTrimStart line).length
  let level := leadingSpaces / 4
  if optStrTruthy positionNumber then
    max level ((positionNumber.getD "").data.filter (fun c => c = '.')).length
  else level

/-- The lookahead filter of the description scan. -/
def lookaheadOk (l : String) : Bool :=
  l ≠ "" ∧ ¬ looksLikePosition l ∧ (jsTrim l).length > 10

/-- Description lookahead of `parsePosition`: the first of the next two lines
that is nonempty, does not itself look like a position, and has trimmed
length above ten. -/
def lookaheadDescription (allLines : List String) (currentIndex : Nat) : String :=
  match allLines.get? (currentIndex + 1) with
  | some l =>
      if lookaheadOk l then jsTrim l
      else
        match allLines.get? (currentIndex + 2) with
        | some l2 => if lookaheadOk l2 then jsTrim l2 else ""
        | none => ""
  | none => ""

/-- Quantity/price derivation of `parsePosition` (the four-way `if` chain
guarded by `type === 'position' && cleanNumbers.length > 0`); returns
`(quantity, unitPrice, totalPrice)`. -/
def derivePricing (type : PosType) (cleanNumbers : List JsNum)
    (currencyAmount : Option JsNum) :
    Option JsNum × Option JsNum × Option JsNum :=
  match type, cleanNumbers with
  | .position, n0 :: rest =>
      if optNumTruthy currencyAmount ∧ rest.length = 0 then
        let up := currencyAmount.getD .nan
        (some n0, some up, some (n0.mul up))
      else if optNumTruthy currencyAmount ∧ 1 ≤ rest.length then
        (some n0, currencyAmount, some (rest.headD .nan))
      else if 1 ≤ rest.length ∧ ¬ optNumTruthy currencyAmount then
        let largerNumber := JsNum.maxList rest
        if largerNumber.gt (.num 1) then
          (some n0, some (largerNumber.div n0), some largerNumber)
        else (some n0, none, none)
      else if rest.length = 0 ∧ ¬ optNumTruthy currencyAmount then
        (some n0, none, none)
      else (none, none, none)
  | _, _ => (none, none, none)

/-- Source `parsePosition`.  The body of the source cannot throw under this
model (all extractions are total), so the `catch` branch returning `null` is
unreachable; the `Option` result mirrors the source signature. -/
def parsePosition (line : String) (index : Nat) (allLines : List String)
    (currentIndex : Nat) : Option GAEBPosition :=
  let trimmedLine := jsTrim line
  let positionNumber := extractPositionNumber line
  let id :=
    if optStrTruthy positionNumber then positionNumber.getD ""
    else "pos_" ++ natStr (index + 1)
  let cleanNumbers := extractCleanNumbers line
  let unit := extractUnit line
  let currencyAmount := extractCurrency line
  let type := classifyType trimmedLine positionNumber unit currencyAmount
  let title := deriveTitle trimmedLine positionNumber unit currencyAmount index
  let level := deriveLevel line positionNumber
  let description := lookaheadDescription allLines currentIndex
  let pr := derivePricing type cleanNumbers currencyAmount
  some {
    id := id
    positionNumber := positionNumber
    title := title
    description := if description = "" then none else some description
    unit :=
      match unit with
      | some u => if u ≠ "" ∧ u ≠ "€" ∧ u ≠ "EUR" ∧ u ≠ "DM" then some u else none
      | none => none
    level := level
    parent := none
    type := type
    quantity := pr.1
    unitPrice := pr.2.1
    totalPrice := pr.2.2 }

/-- The per-line loop of `parseTextGAEB`: `lines` is the full filtered line
array (used for the lookahead), the second list the remaining suffix, `i`
the current index, `inPositions` the section state, `counter` the running
position counter. -/
def textScan (lines : List String) : List String → Nat → Bool → Nat →
    GAEBHeader → GAEBHeader × List GAEBPosition
  | [], _, _, _, hdr => (hdr, [])
  | line :: rest, i, inPositions, counter, hdr =>
      if line = "" then textScan lines rest (i + 1) inPositions counter hdr
      else
        let lower := jsToLower line
        let hdr1 :=
          if ¬ inPositions then
            if jsIncludes lower "project" ∨ jsIncludes lower "projekt" then
              { hdr with project := some (extractValue line) }
            else if jsIncludes lower "version" then
              { hdr with version := some (extractValue line) }
            else if jsIncludes lower "date" ∨ jsIncludes lower "datum" then
              { hdr with date := some (extractValue line) }
            else if jsIncludes lower "description" ∨ jsIncludes lower "beschreibung" then
              { hdr with description := some (extractValue line) }
            else hdr
          else hdr
        let inPos1 := inPositions ∨ looksLikePosition line
        if inPos1 ∧ looksLikePosition line then
          match parsePosition line counter lines i with
          | some p =>
              let r := textScan lines rest (i + 1) inPos1 (counter + 1) hdr1
              (r.1, p :: r.2)
          | none => textScan lines rest (i + 1) inPos1 (counter + 1) hdr1
        else textScan lines rest (i + 1) inPos1 counter hdr1

/-- Source `parseTextGAEB`: split, trim, drop empty lines, scan. -/
def parseTextGAEB (content fileName now : String) : GAEBData :=
  let lines := ((jsSplitChar '\n' content).map jsTrim).filter (fun l => l ≠ "")
  let hdr0 : GAEBHeader := { format := some (detectGAEBFormat content) }
  let r := textScan lines lines 0 false 0 hdr0
  { header := r.1
    positions := r.2
    rawContent := content
    fileName := fileName
    processedAt := now
    totalPositions := r.2.length }

/-! ## `GAEBParser`: the structured-markup path -/

/-- Source `parseXMLCategory`.  (The source also reads the category's
`RNoPart` into a local `rNoPart` that it never uses.)  The body is total, so
the `catch` branch returning `null` is unreachable. -/
def parseXMLCategory (categoryElement : XNode) (index : Nat)
    (categoryNumber : Option Int) : Option GAEBPosition :=
  let id := categoryElement.attrOr "ID" ("cat_" ++ natStr (index + 1))
  let title :=
    match categoryElement.querySelector [] "LblTx" with
    | none => "Unknown Category"
    | some lblTx =>
        match lblTx.querySelector [] "span" with
        | some sp => orIfEmpty (jsTrim sp.textContent) "Unknown Category"
        | none =>
            match lblTx.querySelector [] "p" with
            | some p => orIfEmpty (jsTrim p.textContent) "Unknown Category"
            | none => orIfEmpty (jsTrim lblTx.textContent) "Unknown Category"
  some {
    id := id
    positionNumber := some (jsIntStr categoryNumber)
    title := title
    description := none
    unit := none
    quantity := none
    unitPrice := none
    totalPrice := none
    level := 0
    parent := none
    type := .title }

/-- Truthiness of the `parseInt` result (`NaN` — modelled `none` — and `0`
are falsy). -/
def optIntTruthy : Option Int → Bool
  | none => false
  | some n => decide (n ≠ 0)

/-- Source `parseXMLItem`.  `categoryNumber` is the `parseInt` result of the
category's partial number (`none` models `NaN`); `itemNumber` is the 1-based
item index.  The body is total, so the `catch` branch is unreachable. -/
def parseXMLItem (itemElement : XNode) (index : Nat)
    (parentCategoryId : Option String) (categoryNumber : Option Int)
    (itemNumber : Nat) : Option GAEBPosition :=
  let id := itemElement.attrOr "ID" ("item_" ++ natStr (index + 1))
  let rNoPart := itemElement.attrOr "RNoPart" (natStr (index + 1))
  let quantity := (itemElement.querySelector [] "Qty").map
      (fun qty => parseFloatJS (orIfEmpty qty.textContent "0"))
  let unit := (itemElement.querySelector [] "QU").map
      (fun qu => jsTrim qu.textContent)
  let title0 := "Position " ++ rNoPart
  let titleDesc :=
    match itemElement.querySelector [] "Description" with
    | none => (title0, "")
    | some descriptionElement =>
        let titleA :=
          match descriptionElement.querySelector
              ["OutlineText", "TextOutlTxt"] "span" with
          | some o => orIfEmpty (jsTrim o.textContent) title0
          | none => title0
        match descriptionElement.querySelector [] "DetailTxt" with
        | none => (titleA, "")
        | some detailTxt =>
            let textParts := (detailTxt.querySelectorAll ["p"] "span").filterMap
                (fun (p : XNode) =>
                  let t := jsTrim p.textContent
                  if t ≠ "" then some t else none)
            match textParts with
            | [] => (titleA, "")
            | t0 :: _ =>
                let description := joinWith " " textParts
                let titleB :=
                  if titleA = title0 ∧ t0 ≠ "" then
                    jsSubstringTo 100 t0 ++ (if t0.length > 100 then "..." else "")
                  else titleA
                (titleB, description)
  let hierarchicalPositionNumber :=
    if optIntTruthy categoryNumber ∧ itemNumber ≠ 0 then
      jsIntStr categoryNumber ++ "." ++ natStr itemNumber
    else rNoPart
  some {
    id := id
    positionNumber := some hierarchicalPositionNumber
    title := titleDesc.1
    description := if titleDesc.2 = "" then none else some titleDesc.2
    unit := unit
    quantity := quantity
    unitPrice := none
    totalPrice := none
    level := 1
    parent := parentCategoryId
    type := .position }

/-- Source `parseXMLGAEB`.  `xmlDoc` is the tree produced by the external
`DOMParser`; a reported parse error — the `parsererror` element — triggers
the fallback to the heuristic text path.  Under this model the extraction
body is total, so the `catch`-triggered fallback is unreachable. -/
def parseXMLGAEB (content fileName now : String) (xmlDoc : XNode) : GAEBData :=
  let format := detectXMLGAEBFormat content
  if (xmlDoc.querySelector [] "parsererror").isSome then
    parseTextGAEB content fileName now
  else
    let version := (xmlDoc.querySelector [] "GAEB").map
        (fun gaebElement => gaebElement.attrOr "xmlns" "Unknown")
    let project := (xmlDoc.querySelector [] "Award").bind (fun awardElement =>
        (match awardElement.querySelector [] "Project" with
         | some e => some e
         | none =>
             match awardElement.querySelector [] "Name" with
             | some e => some e
             | none => awardElement.querySelector [] "Title").map
          (fun (projectElement : XNode) => jsTrim projectElement.textContent))
    let positions :=
      match xmlDoc.querySelector [] "BoQ" with
      | none => []
      | some boqElement =>
          ((boqElement.querySelectorAll [] "BoQCtgy").enum.map (fun ce =>
            let categoryIndex := ce.1
            let category := ce.2
            let categoryRNoPart :=
              category.attrOr "RNoPart" (natStr (categoryIndex + 1))
            let categoryNumber := parseIntJS categoryRNoPart
            let categoryPosition :=
              parseXMLCategory category categoryIndex categoryNumber
            let catList :=
              match categoryPosition with
              | some p => [p]
              | none => []
            let items := (category.querySelectorAll [] "Item").enum.filterMap
                (fun ie =>
                  parseXMLItem ie.2 ie.1
                    (categoryPosition.map (fun p => p.id))
                    categoryNumber (ie.1 + 1))
            catList ++ items)).flatten
    { header := { version := version, project := project, format := some format }
      positions := positions
      rawContent := content
      fileName := fileName
      processedAt := now
      totalPositions := positions.length }

/-- Source `GAEBParser.parse`: the format classifier and dispatcher.  `domOf`
is the external `DOMParser`, `now` the external clock. -/
def parse (domOf : String → XNode) (now content fileName : String) : GAEBData :=
  if jsStartsWith (jsTrim content) "<?xml" ∨ jsIncludes content "<GAEB" then
    parseXMLGAEB content fileName now (domOf content)
  else
    parseTextGAEB content fileName now

/-! ## `ExcelExporter`: sheet naming -/

/-- The character class `[\\/:*?"<>|]` replaced in sheet names. -/
def sheetUnsafeChar (c : Char) : Bool :=
  c = '\\' ∨ c = '/' ∨ c = ':' ∨ c = '*' ∨ c = '?' ∨ c = '"' ∨
  c = '<' ∨ c = '>' ∨ c = '|'

/-- Source `cleanFileName` computation of `exportToExcel`: path-unsafe
characters replaced by underscores, then truncated to 31 characters. -/
def cleanSheetName (fileName : String) : String :=
  jsSubstringTo 31 ⟨fileName.data.map (fun c => if sheetUnsafeChar c then '_' else c)⟩

/-- The per-document sheet names produced by `exportToExcel` (the pure part
of the workbook construction the sheet-name claims are about). -/
def exportSheetNames (gaebFiles : List GAEBData) : List String :=
  gaebFiles.enum.map (fun e =>
    let cleanFileName := cleanSheetName e.2.fileName
    if gaebFiles.length > 1 then
      "File_" ++ natStr (e.1 + 1) ++ "_" ++ cleanFileName
    else cleanFileName)

/-! ## Spec-side definitions for the quantity/price derivation claims -/

/-- The quantity/price derivation exactly as the claim's sentence words it:
`(a)` one plain number AND a currency amount (mere presence of the extracted
currency amount), `(b)` two or more plain numbers and a currency amount,
`(c)` two or more plain numbers and no currency amount, `(d)` one plain
number and no currency amount; zero numbers leave everything undefined. -/
def deriveClaimed (nums : List JsNum) (cur : Option JsNum) :
    Option JsNum × Option JsNum × Option JsNum :=
  match nums, cur with
  | [n0], some c => (some n0, some c, some (n0.mul c))
  | n0 :: n1 :: _, some c => (some n0, some c, some n1)
  | n0 :: n1 :: rest, none =>
      let m := JsNum.maxList (n1 :: rest)
      if m.gt (.num 1) then (some n0, some (m.div n0), some m)
      else (some n0, none, none)
  | [n0], none => (some n0, none, none)
  | [], _ => (none, none, none)

/-- The amended derivation: identical to `deriveClaimed` except that "a
currency amount" means a *truthy* one — present and nonzero (the source tests
`currencyAmount &&`, so an extracted amount of `0` falls through to the
no-currency cases). -/
def deriveAmended (nums : List JsNum) (cur : Option JsNum) :
    Option JsNum × Option JsNum × Option JsNum :=
  if optNumTruthy cur then
    match nums with
    | [] => (none, none, none)
    | [n0] => (some n0, cur, some (n0.mul (cur.getD .nan)))
    | n0 :: n1 :: _ => (some n0, cur, some n1)
  else
    match nums with
    | [] => (none, none, none)
    | [n0] => (some n0, none, none)
    | n0 :: rest =>
        let m := JsNum.maxList rest
        if m.gt (.num 1) then (some n0, some (m.div n0), some m)
        else (some n0, none, none)

/-- A throwaway `GAEBPosition` used only as the default of `List.headD` in
closed witness statements. -/
def defaultPos : GAEBPosition :=
  { id := ""
    positionNumber := none
    title := ""
    description := none
    unit := none
    quantity := none
    unitPrice := none
    totalPrice := none
    level := 0
    parent := none
    type := .text }

/-! ## Claim C1 -/

/-- Claim C1, counterexample: on the line `"1.2 Mauerwerk 20m² 15,50€"` the
parser does **not** produce `quantity = 20`, `unit = "m²"`,
`totalPrice = 310`. -/
theorem c1_counterexample :
    (parseTextGAEB "1.2 Mauerwerk 20m² 15,50€" "angebot.d83" "now").positions.map
        (fun p => (p.quantity, p.unit, p.totalPrice)) ≠
      [(some (JsNum.num 20), some "m²", some (JsNum.num 310))] := by
  decide

/-- Claim C1 (corrected): for the single input line
`"1.2 Mauerwerk 20m² 15,50€"` the heuristic line parser emits one node with
`type = position` and `positionNumber = "1.2"`, but: `unit` is undefined (the
word-boundary-delimited unit pattern cannot match `m²` glued to digits),
`quantity = 1.2` (the decimal-number extraction picks up the position number
itself and skips the integer `20`), `unitPrice = 15.50`, and
`totalPrice = 15.50` (the second extracted decimal, taken verbatim). -/
theorem c1_holds :
    (parseTextGAEB "1.2 Mauerwerk 20m² 15,50€" "angebot.d83" "now").positions.map
        (fun p => (p.type, p.positionNumber, p.unit)) =
      [(PosType.position, some "1.2", none)] ∧
    (parseTextGAEB "1.2 Mauerwerk 20m² 15,50€" "angebot.d83" "now").positions.map
        (fun p => (p.quantity, p.unitPrice, p.totalPrice)) =
      [(some (JsNum.num (6 / 5)), some (JsNum.num (31 / 2)),
        some (JsNum.num (31 / 2)))] :=
  ⟨by decide, by decide⟩

/-! ## Claim C2 -/

/-- Claim C2, counterexample: the line `"Beton 5,5 0,00€"` has two plain
numbers and an extracted currency amount of `0`; the claim's case (b) would
give `unitPrice = 0` and `totalPrice = 0`, but the parser (which tests the
currency amount for JavaScript truthiness, so `0` falls through) leaves both
undefined. -/
theorem c2_counterexample :
    (parseTextGAEB "Beton 5,5 0,00€" "lv.d83" "now").positions.map
        (fun p => (p.type, p.quantity, p.unitPrice, p.totalPrice)) =
      [(PosType.position, some (JsNum.num (11 / 2)), none, none)] ∧
    deriveClaimed (extractCleanNumbers "Beton 5,5 0,00€")
        (extractCurrency "Beton 5,5 0,00€") =
      (some (JsNum.num (11 / 2)), some (JsNum.num 0), some (JsNum.num 0)) :=
  ⟨by decide, by decide⟩

theorem derivePricing_position_eq (nums : List JsNum) (cur : Option JsNum) :
    derivePricing .position nums cur = deriveAmended nums cur := by
  by_cases h : optNumTruthy cur = true
  · rcases cur with _ | c
    · simp [optNumTruthy] at h
    · match nums with
      | [] => simp [derivePricing, deriveAmended, h]
      | [n0] => simp [derivePricing, deriveAmended, h]
      | n0 :: n1 :: rest => simp [derivePricing, deriveAmended, h]
  · match nums with
    | [] => simp [derivePricing, deriveAmended, h]
    | [n0] => simp [derivePricing, deriveAmended, h]
    | n0 :: n1 :: rest => simp [derivePricing, deriveAmended, h]

/-- Claim C2 (corrected): for every line the heuristic parser classifies as
`position`, the `(quantity, unitPrice, totalPrice)` fields are derived from
the extracted plain numbers and currency amount by the claim's prioritized
cases — amended so that "a currency amount" means a *truthy* (present and
nonzero) one: an extracted amount of `0` falls through to the no-currency
cases, because the source guards with `currencyAmount &&`. -/
theorem c2_holds (line : String) (index : Nat) (allLines : List String)
    (currentIndex : Nat) (p : GAEBPosition)
    (hp : parsePosition line index allLines currentIndex = some p)
    (ht : p.type = PosType.position) :
    (p.quantity, p.unitPrice, p.totalPrice) =
      deriveAmended (extractCleanNumbers line) (extractCurrency line) := by
  simp only [parsePosition, Option.some.injEq] at hp
  subst hp
  simp only at ht ⊢
  rw [ht, derivePricing_position_eq]

/-- Claim C2, witness at the line `"1 Beton 5 Stk"`. -/
theorem c2_witness :
    (((parsePosition "1 Beton 5 Stk" 0 ["1 Beton 5 Stk"] 0).getD defaultPos).quantity,
     ((parsePosition "1 Beton 5 Stk" 0 ["1 Beton 5 Stk"] 0).getD defaultPos).unitPrice,
     ((parsePosition "1 Beton 5 Stk" 0 ["1 Beton 5 Stk"] 0).getD defaultPos).totalPrice) =
      deriveAmended (extractCleanNumbers "1 Beton 5 Stk")
        (extractCurrency "1 Beton 5 Stk") :=
  c2_holds "1 Beton 5 Stk" 0 ["1 Beton 5 Stk"] 0
    ((parsePosition "1 Beton 5 Stk" 0 ["1 Beton 5 Stk"] 0).getD defaultPos)
    (by decide) (by decide)

/-! ## Claim C3 -/

/-- A structured document whose item's unit element (`QU`) carries the
currency code `EUR`. -/
def currencyUnitDoc : XNode :=
  .elem "#document" [] [.elem "GAEB" [] [.elem "BoQ" [] [
    .elem "BoQCtgy" [("RNoPart", "1")] [
      .elem "Item" [("ID", "i1")] [
        .elem "Qty" [] [.text "5"],
        .elem "QU" [] [.text "EUR"]]]]]]

/-- Claim C3, counterexample: the structured-markup path stores the unit
verbatim, so an item with `<QU>EUR</QU>` yields a `position` node whose
`unit` is the currency code `EUR`. -/
theorem c3_counterexample :
    (parseXMLGAEB "<GAEB>" "angebot.x83" "now" currencyUnitDoc).positions.map
        (fun p => (p.type, p.unit)) =
      [(PosType.title, none), (PosType.position, some "EUR")] ∧
    (PosType.position, some "EUR") ∈
      (parseXMLGAEB "<GAEB>" "angebot.x83" "now" currencyUnitDoc).positions.map
        (fun p => (p.type, p.unit)) :=
  ⟨by decide, by decide⟩

theorem textScan_mem (lines : List String) :
    ∀ (rest : List String) (i : Nat) (b : Bool) (cnt : Nat) (hdr : GAEBHeader)
      (p : GAEBPosition), p ∈ (textScan lines rest i b cnt hdr).2 →
      ∃ l c j, parsePosition l c lines j = some p := by
  intro rest
  induction rest with
  | nil => intro i b cnt hdr p h; simp [textScan] at h
  | cons line rest ih =>
    intro i b cnt hdr p h
    rw [textScan] at h
    by_cases h0 : line = ""
    · rw [if_pos h0] at h
      exact ih _ _ _ _ _ h
    · rw [if_neg h0] at h
      dsimp only at h
      split at h
      · split at h
        · next p' heq =>
            rcases List.mem_cons.mp h with rfl | hmem
            · exact ⟨line, cnt, i, heq⟩
            · exact ih _ _ _ _ _ hmem
        · exact ih _ _ _ _ _ h
      · exact ih _ _ _ _ _ h

theorem parsePosition_unit (line : String) (index : Nat) (allLines : List String)
    (currentIndex : Nat) (p : GAEBPosition)
    (hp : parsePosition line index allLines currentIndex = some p) :
    p.unit ≠ some "€" ∧ p.unit ≠ some "EUR" ∧ p.unit ≠ some "DM" := by
  simp only [parsePosition, Option.some.injEq] at hp
  subst hp
  simp only
  rcases hu : extractUnit line with _ | u
  · simp
  · dsimp only
    split_ifs with hcond
    · simp [hcond.2.1, hcond.2.2.1, hcond.2.2.2]
    · simp

/-- Claim C3 (corrected): restricted to the heuristic text path — for every
document it produces, no node's stored `unit` equals a currency symbol or
code (`€`, `EUR`, `DM`); the structured-markup path, by contrast, stores the
source unit verbatim (see the counterexample). -/
theorem c3_holds (content fileName now : String) (p : GAEBPosition)
    (hp : p ∈ (parseTextGAEB content fileName now).positions)
    (ht : p.type = PosType.position) :
    p.unit ≠ some "€" ∧ p.unit ≠ some "EUR" ∧ p.unit ≠ some "DM" := by
  obtain ⟨l, c, j, heq⟩ := textScan_mem _ _ _ _ _ _ _ hp
  exact parsePosition_unit _ _ _ _ _ heq

/-- Claim C3, witness on the line `"1 Beton 5 Stk"`. -/
theorem c3_witness :
    ((parseTextGAEB "1 Beton 5 Stk" "lv1.d83" "now").positions.headD
        defaultPos).unit ≠ some "€" ∧
    ((parseTextGAEB "1 Beton 5 Stk" "lv1.d83" "now").positions.headD
        defaultPos).unit ≠ some "EUR" ∧
    ((parseTextGAEB "1 Beton 5 Stk" "lv1.d83" "now").positions.headD
        defaultPos).unit ≠ some "DM" :=
  c3_holds "1 Beton 5 Stk" "lv1.d83" "now" _ (by decide) (by decide)

/-! ## Claim C4 -/

/-- A structured document with one category (partial number `catAttr`)
containing two items whose own partial-number attributes are `a` and `b`. -/
def catDoc (catAttr a b : String) : XNode :=
  .elem "#document" [] [.elem "GAEB" [] [.elem "BoQ" [] [
    .elem "BoQCtgy" [("RNoPart", catAttr)] [
      .elem "Item" [("RNoPart", a)] [],
      .elem "Item" [("RNoPart", b)] []]]]]

/-- A structured document with one category lacking a partial-number
attribute, containing two items. -/
def catDocNoAttr : XNode :=
  .elem "#document" [] [.elem "GAEB" [] [.elem "BoQ" [] [
    .elem "BoQCtgy" [] [.elem "Item" [] [], .elem "Item" [] []]]]]

/-- Claim C4, counterexample: with a category whose `RNoPart` is present but
not parseable as an integer (`"x"`), the claimed fallback to the 1-based
sequential index does not happen; `parseInt` yields `NaN`, the category is
numbered `"NaN"`, and the items fall back to their own `RNoPart` values
instead of `1.1`, `1.2`. -/
theorem c4_counterexample :
    (parseXMLGAEB "<GAEB>" "projekt.x83" "now" (catDoc "x" "7" "8")).positions.map
        (fun p => p.positionNumber) = [some "NaN", some "7", some "8"] ∧
    ([some "NaN", some "7", some "8"] : List (Option String)) ≠
      [some "1", some "1.1", some "1.2"] :=
  ⟨by decide, by decide⟩

/-- Claim C4 (corrected): a category with `RNoPart="3"` and two items yields
position numbers `3`, `3.1`, `3.2` regardless of the items' own `RNoPart`
attributes; with the attribute absent the 1-based category index is used
(`1`, `1.1`, `1.2`); but when the attribute is present and not parseable as
an integer the ordinal is `NaN` — the category is numbered `"NaN"` and the
items keep their own `RNoPart`-based numbers — rather than the claimed
sequential index. -/
theorem c4_holds :
    (∀ a b : String,
      (parseXMLGAEB "<GAEB>" "projekt.x83" "now" (catDoc "3" a b)).positions.map
          (fun p => p.positionNumber) = [some "3", some "3.1", some "3.2"]) ∧
    (parseXMLGAEB "<GAEB>" "projekt.x83" "now" catDocNoAttr).positions.map
        (fun p => p.positionNumber) = [some "1", some "1.1", some "1.2"] ∧
    (parseXMLGAEB "<GAEB>" "projekt.x83" "now" (catDoc "x" "7" "8")).positions.map
        (fun p => p.positionNumber) = [some "NaN", some "7", some "8"] :=
  ⟨fun a b => rfl, by decide, by decide⟩

/-! ## Claim C5 -/

/-- A structured document with one category and two items whose `Qty`
sub-elements do not parse as numbers: one reads `abc`, one is empty. -/
def badQtyDoc : XNode :=
  .elem "#document" [] [.elem "GAEB" [] [.elem "BoQ" [] [
    .elem "BoQCtgy" [("RNoPart", "1")] [
      .elem "Item" [("ID", "ia")] [.elem "Qty" [] [.text "abc"]],
      .elem "Item" [("ID", "ib")] [.elem "Qty" [] []]]]]]

/-- Claim C5, counterexample: an item whose `Qty` text is `"abc"` gets
`quantity = NaN`, and one whose `Qty` text is empty gets `quantity = 0` (the
source defaults the empty text to `'0'` before parsing) — neither is
undefined, and the zero case also contradicts "never zero". -/
theorem c5_counterexample :
    (parseXMLGAEB "<GAEB>" "projekt.x83" "now" badQtyDoc).positions.map
        (fun p => p.quantity) = [none, some JsNum.nan, some (JsNum.num 0)] ∧
    ([none, some JsNum.nan, some (JsNum.num 0)] : List (Option JsNum)) ≠
      [none, none, none] :=
  ⟨by decide, by decide⟩

/-- An item element whose `Qty` sub-element holds the text `t`. -/
def qtyItem (t : String) : XNode :=
  .elem "Item" [("ID", "ia")] [.elem "Qty" [] [.text t]]

/-- Claim C5 (corrected): when the `Qty` sub-element is present, the emitted
quantity is never undefined and the extraction is total: the source computes
`parseFloat(textContent || '0')`, so empty text yields `0` and nonempty
unparseable text yields `NaN` (not `undefined`). -/
theorem c5_holds (t : String) :
    (parseXMLItem (qtyItem t) 0 none (some 1) 1).map (fun p => p.quantity) =
      some (some (if t = "" then JsNum.num 0 else parseFloatJS t)) := by
  have htc : (XNode.elem "Qty" [] [XNode.text t]).textContent = t := by
    show t ++ "" = t
    exact String.append_empty t
  by_cases h : t = ""
  · subst h
    decide
  · simp [parseXMLItem, qtyItem, XNode.querySelector, XNode.querySelectorAll,
      XNode.descendantsWithPath, XNode.descendantsWithPath.descListWithPath,
      htc, orIfEmpty, h, List.findSome?_cons, Function.comp, XNode.selChain]

/-! ## Claim C6 -/

/-- Claim C6 (confirmed): whenever the DOM produced for the input reports a
parse failure (a `parsererror` element — the way `DOMParser` reports both
tree-building failures and malformed markup), the top-level parse entry point
returns exactly the result of the heuristic line parser on the same raw text
and file name; no partial structured results are mixed in.  (Extraction
throws are unreachable in this model, all extraction being total.) -/
theorem c6_holds (domOf : String → XNode) (now content fileName : String)
    (h : (XNode.querySelector (domOf content) [] "parsererror").isSome = true) :
    parse domOf now content fileName = parseTextGAEB content fileName now := by
  unfold parse
  split
  · unfold parseXMLGAEB
    rw [if_pos h]
  · rfl

/-- A document reporting a DOM parse failure, as `DOMParser` produces for
malformed markup such as an unclosed tag. -/
def errDoc : XNode :=
  .elem "#document" [] [.elem "parsererror" [] [.text "unclosed tag"]]

/-- Claim C6, witness on the malformed input `"<GAEB><Item></GAEB"`. -/
theorem c6_witness :
    (XNode.querySelector (errDoc) [] "parsererror").isSome = true ∧
    parse (fun _ => errDoc) "now" "<GAEB><Item></GAEB" "kaputt.x83" =
      parseTextGAEB "<GAEB><Item></GAEB" "kaputt.x83" "now" :=
  ⟨by decide,
   c6_holds (fun _ => errDoc) "now" "<GAEB><Item></GAEB" "kaputt.x83" (by decide)⟩

/-! ## Claim C7 -/

/-- Claim C7 (confirmed): for every parsed document produced by either path
of the top-level parse operation, `totalPositions` equals the length of the
`positions` sequence. -/
theorem c7_holds (domOf : String → XNode) (now content fileName : String) :
    (parse domOf now content fileName).totalPositions =
      (parse domOf now content fileName).positions.length := by
  unfold parse
  split
  · unfold parseXMLGAEB
    split
    · rfl
    · rfl
  · rfl

/-! ## Claim C9 -/

/-- Claim C9 (confirmed): the top-level parse operation is total — it always
returns a `ParsedDocument` (in this embedding, a total function into
`GAEBData`), carrying the given raw text and file name; heuristic misses
merely yield fewer or zero positions.  The only fallible steps of the source
(`DOMParser` use and per-line extraction) are wrapped in `try`/`catch` whose
recovery is the text-path fallback or a skipped line, and in this model all
extraction is total, so no execution path throws. -/
theorem c9_holds (domOf : String → XNode) (now content fileName : String) :
    (parse domOf now content fileName).rawContent = content ∧
    (parse domOf now content fileName).fileName = fileName := by
  unfold parse
  split
  · unfold parseXMLGAEB
    split
    · exact ⟨rfl, rfl⟩
    · exact ⟨rfl, rfl⟩
  · exact ⟨rfl, rfl⟩

/-! ## Claim C8 -/

/-- Claim C8, counterexample: two lines with the same leading position number
produce two nodes with the identical id `"1"` in one document, so ids are not
pairwise distinct. -/
theorem c8_counterexample :
    (parseTextGAEB "1 Beton\n1 Mauerwerk" "doppelt.d83" "now").positions.map
        (fun p => p.id) = ["1", "1"] ∧
    ¬ ((parseTextGAEB "1 Beton\n1 Mauerwerk" "doppelt.d83" "now").positions.map
        (fun p => p.id)).Pairwise (fun a b => a ≠ b) :=
  ⟨by decide, by decide⟩

theorem parsePosition_id (line : String) (index : Nat) (allLines : List String)
    (currentIndex : Nat) (p : GAEBPosition)
    (hp : parsePosition line index allLines currentIndex = some p) :
    (∀ s, p.positionNumber = some s → s ≠ "" → p.id = s) ∧
    (optStrTruthy p.positionNumber = false → ∃ k, p.id = "pos_" ++ natStr k) := by
  simp only [parsePosition, Option.some.injEq] at hp
  subst hp
  constructor
  · intro s hs hne
    dsimp only at hs ⊢
    rw [hs]
    simp [optStrTruthy, hne]
  · intro hfalse
    dsimp only at hfalse ⊢
    refine ⟨index + 1, ?_⟩
    simp [hfalse]

/-- Claim C8 (corrected): within a document from the heuristic path, each
node's id is the extracted position number when that is present and nonempty,
else the synthesized `pos_<ordinal>` — but ids are **not** pairwise distinct:
two lines with equal extracted position numbers yield equal ids (see the
counterexample; the structured path can likewise repeat source ids). -/
theorem c8_holds (content fileName now : String) (p : GAEBPosition)
    (hp : p ∈ (parseTextGAEB content fileName now).positions) :
    (∀ s, p.positionNumber = some s → s ≠ "" → p.id = s) ∧
    (optStrTruthy p.positionNumber = false → ∃ k, p.id = "pos_" ++ natStr k) := by
  obtain ⟨l, c, j, heq⟩ := textScan_mem _ _ _ _ _ _ _ hp
  exact parsePosition_id _ _ _ _ _ heq

/-- Claim C8, witness on the single line `"1 Beton"`. -/
theorem c8_witness :
    ((parseTextGAEB "1 Beton" "einzeln.d83" "now").positions.headD defaultPos).id
      = "1" :=
  (c8_holds "1 Beton" "einzeln.d83" "now"
    ((parseTextGAEB "1 Beton" "einzeln.d83" "now").positions.headD defaultPos)
    (by decide)).1 "1" (by decide) (by decide)

/-! ## Claim C10 -/

/-- A parsed document whose file name has 35 characters. -/
def longNameFile : GAEBData := parseTextGAEB "Inhalt" ⟨List.replicate 35 'a'⟩ "now"

/-- A parsed document with a short file name. -/
def shortNameFile : GAEBData := parseTextGAEB "Inhalt" "b.x83" "now"

/-- Claim C10, counterexample: exporting two documents, the first with a
35-character file name, produces the sheet name `File_1_` + 31 characters —
38 characters, beyond the 31-character limit (truncation happens before the
ordinal prefix is attached). -/
theorem c10_counterexample :
    (exportSheetNames [longNameFile, shortNameFile]).map String.length =
      [38, 12] ∧
    ((exportSheetNames [longNameFile, shortNameFile]).headD "").length > 31 :=
  ⟨by decide, by decide⟩

theorem natDigits_ne_underscore {n : Nat} {c : Char} (h : c ∈ natDigits n) :
    c ≠ '_' := by
  have hm := natDigits_mem_digits h
  fin_cases hm <;> decide

theorem splitAtSep {x y : List Char} :
    ∀ {a b : List Char}, (∀ c ∈ a, c ≠ '_') → (∀ c ∈ b, c ≠ '_') →
      a ++ '_' :: x = b ++ '_' :: y → a = b ∧ x = y := by
  intro a
  induction a with
  | nil =>
    intro b _ hb h
    cases b with
    | nil => simpa using h
    | cons bc bt =>
      simp only [List.nil_append, List.cons_append, List.cons.injEq] at h
      exact absurd h.1.symm (hb bc (by simp))
  | cons ac at' ih =>
    intro b ha hb h
    cases b with
    | nil =>
      simp only [List.nil_append, List.cons_append, List.cons.injEq] at h
      exact absurd h.1 (ha ac (by simp))
    | cons bc bt =>
      simp only [List.cons_append, List.cons.injEq] at h
      obtain ⟨rfl, h2⟩ := h
      have hrec := ih (fun c hc => ha c (by simp [hc]))
        (fun c hc => hb c (by simp [hc])) h2
      exact ⟨by rw [hrec.1], hrec.2⟩

theorem sheetName_inj {i j : Nat} {x y : String}
    (h : "File_" ++ natStr (i + 1) ++ "_" ++ x =
      "File_" ++ natStr (j + 1) ++ "_" ++ y) : i = j := by
  have hd := congrArg String.data h
  simp only [String.data_append, List.append_assoc, List.singleton_append] at hd
  have hd2 := List.append_cancel_left hd
  have hsplit := splitAtSep (fun c hc => natDigits_ne_underscore hc)
    (fun c hc => natDigits_ne_underscore hc) hd2
  have : natStr (i + 1) = natStr (j + 1) := congrArg String.mk hsplit.1
  have := natStr_injective this
  omega

theorem exportSheetNames_multi_aux (t : List GAEBData) :
    ∀ k, ((t.enumFrom k).map (fun e =>
      "File_" ++ natStr (e.1 + 1) ++ "_" ++ cleanSheetName e.2.fileName)).Nodup := by
  induction t with
  | nil => intro k; simp
  | cons d rest ih =>
    intro k
    simp only [List.enumFrom_cons, List.map_cons, List.nodup_cons]
    refine ⟨?_, ih (k + 1)⟩
    intro hmem
    obtain ⟨e, he, heq⟩ := List.mem_map.mp hmem
    obtain ⟨e1, e2⟩ := e
    have hk := (List.mem_enumFrom he).1
    have := sheetName_inj heq
    omega

theorem exportSheetNames_nodup (files : List GAEBData) :
    (exportSheetNames files).Nodup := by
  match files with
  | [] => simp [exportSheetNames]
  | [f] => simp [exportSheetNames]
  | f1 :: f2 :: rest =>
    have hlen : (f1 :: f2 :: rest : List GAEBData).length > 1 := by
      simp [List.length_cons]
    have haux := exportSheetNames_multi_aux (f1 :: f2 :: rest) 0
    simpa [exportSheetNames, List.enum, hlen] using haux

theorem cleanSheetName_safe (s : String) :
    ∀ c ∈ (cleanSheetName s).data, sheetUnsafeChar c = false := by
  intro c hc
  have hc2 : c ∈ s.data.map (fun c => if sheetUnsafeChar c then '_' else c) :=
    List.take_subset _ _ hc
  obtain ⟨d, hd, rfl⟩ := List.mem_map.mp hc2
  by_cases hu : sheetUnsafeChar d = true
  · rw [if_pos hu]
    decide
  · rw [if_neg hu]
    simpa using hu

theorem cleanSheetName_le (s : String) : (cleanSheetName s).length ≤ 31 := by
  have : (cleanSheetName s).length =
      ((s.data.map (fun c => if sheetUnsafeChar c then '_' else c)).take 31).length :=
    rfl
  rw [this]
  exact List.length_take_le _ _

theorem exportSheetNames_safe (files : List GAEBData) (name : String)
    (hmem : name ∈ exportSheetNames files) :
    ∀ c ∈ name.data, sheetUnsafeChar c = false := by
  intro c hc
  unfold exportSheetNames at hmem
  obtain ⟨e, he, rfl⟩ := List.mem_map.mp hmem
  dsimp only at hc
  by_cases h : files.length > 1
  · rw [if_pos h] at hc
    simp only [String.data_append, List.append_assoc, List.mem_append] at hc
    rcases hc with hF | hD | hU | hC
    · fin_cases hF <;> decide
    · have hm := natDigits_mem_digits hD
      fin_cases hm <;> decide
    · fin_cases hU <;> decide
    · exact cleanSheetName_safe _ _ hC
  · rw [if_neg h] at hc
    exact cleanSheetName_safe _ _ hc

theorem exportSheetNames_single_le (files : List GAEBData) (h : files.length ≤ 1)
    (name : String) (hmem : name ∈ exportSheetNames files) : name.length ≤ 31 := by
  match files with
  | [] => simp [exportSheetNames] at hmem
  | [f] =>
    have hone : exportSheetNames [f] = [cleanSheetName f.fileName] := by
      simp [exportSheetNames]
    rw [hone, List.mem_singleton] at hmem
    subst hmem
    exact cleanSheetName_le f.fileName
  | f1 :: f2 :: rest =>
    simp [List.length_cons] at h

/-- Claim C10 (corrected): per-document sheet names have all path-unsafe
characters replaced, and when more than one document is exported the 1-based
`File_<ordinal>_` prefix makes them pairwise distinct; but the 31-character
truncation is applied to the cleaned file name *before* the prefix is
attached, so only the single-document name (and the cleaned portion) respect
the 31-character limit — multi-document names may exceed it. -/
theorem c10_holds :
    (∀ files : List GAEBData, (exportSheetNames files).Nodup) ∧
    (∀ files : List GAEBData, ∀ name ∈ exportSheetNames files,
      ∀ c ∈ name.data, sheetUnsafeChar c = false) ∧
    (∀ files : List GAEBData, files.length ≤ 1 →
      ∀ name ∈ exportSheetNames files, name.length ≤ 31) ∧
    (∀ s : String, (cleanSheetName s).length ≤ 31) :=
  ⟨exportSheetNames_nodup,
   fun files name hmem => exportSheetNames_safe files name hmem,
   fun files h name hmem => exportSheetNames_single_le files h name hmem,
   cleanSheetName_le⟩

/-- Claim C10, witness: distinctness on a concrete two-document export, and
the length bound on a concrete single-document export. -/
theorem c10_witness :
    (exportSheetNames [longNameFile, shortNameFile]).Nodup ∧
    ((exportSheetNames [shortNameFile]).headD "").length ≤ 31 :=
  ⟨c10_holds.1 [longNameFile, shortNameFile],
   c10_holds.2.2.1 [shortNameFile] (by decide) _ (by decide)⟩
